import Mathlib

/-!
Verification of the MOFA model-building orchestration (`mofa/core/build_model.py`,
function `runMOFA`) against its natural-language specification.

The embedding follows the source line by line.  `runMOFA` is straight-line code
with no exception handlers, so it is modelled as a sequence of stages, each
producing a list of observable events and possibly a first error; execution
stops at the first erroring stage (Python exception propagation).  The modules
`init_nodes`, `BayesNet` and `utils` are imported by `build_model.py` but are
not part of the sources; the definitions standing for them are marked
"Modelled from the spec".
-/

namespace MOFA

/-- A view of the data: an N x D matrix together with an optional missingness
mask (modelled by its shape only, which is all the masking-related claims
inspect). -/
structure View where
  rows : Nat
  cols : Nat
  mask : Option (Nat × Nat)
deriving DecidableEq, Repr

/-- The entries of `data_opts` that `runMOFA` reads.  `maskAtRandom` and
`maskNSamples` are optional keys holding arrays whose entries are truthy when
nonzero. -/
structure DataOpts where
  outfile : String
  maskAtRandom : Option (List Int)
  maskNSamples : Option (List Int)
deriving DecidableEq, Repr

/-- The entries of `model_opts` that the claims inspect: per-view likelihood
tags, the initial factor count, the sparsity configuration array, the ARD mode
string, the configured initial Theta expectation and the update schedule. -/
structure ModelOpts where
  likelihoods : List String
  factors : Nat
  sparsity : List Rat
  ardW : String
  initThetaE : Rat
  schedule : List String
deriving DecidableEq, Repr

/-- Training options (`train_opts`) as consumed by the training loop. -/
structure TrainOpts where
  maxiter : Nat
  tolerance : Rat
  forceiter : Bool
  elbofreq : Nat
deriving DecidableEq, Repr

/-- Errors a run can stop with: a Python `KeyError` on a missing dictionary
key, or a fatal configuration-validation error. -/
inductive Err where
  | keyError (key : String)
  | validation (msg : String)
deriving DecidableEq, Repr

/-- Observable events of one `runMOFA` execution, in program order. -/
inductive Event where
  | seedSet (seed : Int)
  | printNotice
  | mkdir (dir : String)
  | maskData
  | printSeed (seed : Int)
  | initModel
  | initZ
  | initSW
  | initAlphaW_m
  | initAlphaW_k
  | initAlphaW_mk
  | initTau
  | initThetaMixed (sparsity : List Rat)
  | initThetaConst (value : Rat)
  | initY
  | wire (node : String) (blanket : List (String × String))
  | buildNet (schedule : List String)
  | iterate
  | saveModel
deriving DecidableEq, Repr

/-- Seed selection, from
`if seed is None or seed==0: seed = int(round(time()*1000)%1e6)`:
a `None` or zero seed is replaced by the wall clock in milliseconds reduced
modulo 1e6; any other seed is used as given. -/
def chooseSeed (seed : Option Int) (clock : Int) : Int :=
  match seed with
  | none => clock % 1000000
  | some sd => if sd = 0 then clock % 1000000 else sd

/-- Split a character list at every path separator. -/
def splitSlash : List Char → List (List Char)
  | [] => [[]]
  | c :: cs =>
    let r := splitSlash cs
    if c = '/' then [] :: r
    else
      match r with
      | [] => [[c]]
      | h :: t => (c :: h) :: t

/-- Join path components with the path separator. -/
def joinSlash : List String → String
  | [] => ""
  | [x] => x
  | x :: xs => x ++ "/" ++ joinSlash xs

/-- Directory part of a path, as `os.path.dirname` computes it for ordinary
paths: everything before the final path separator. -/
def dirname (p : String) : String :=
  joinSlash (((splitSlash p.data).map (fun cs => String.mk cs)).dropLast)

/-- Result of the sanity-check stage: the (possibly extended) set of existing
directories, the pass-through data and option structures, and the emitted
events. -/
structure SanityOut where
  fs : List String
  dataOpts : DataOpts
  modelOpts : ModelOpts
  data : List View
  events : List Event
deriving Repr

/-- The sanity-check stage of `runMOFA` (lines 38-41): if the parent directory
of `data_opts["outfile"]` does not exist, print a notice and create it.  The
input data and the option structures flow through untouched. -/
def sanityCheck (fs : List String) (dOpts : DataOpts) (mo : ModelOpts)
    (data : List View) : SanityOut :=
  if dirname dOpts.outfile ∈ fs then ⟨fs, dOpts, mo, data, []⟩
  else ⟨dirname dOpts.outfile :: fs, dOpts, mo, data,
        [Event.printNotice, Event.mkdir (dirname dOpts.outfile)]⟩

/-- A mask whose shape differs from its view's data shape. -/
def maskMismatch (data : List View) : Bool :=
  !(data.all fun v =>
      match v.mask with
      | none => true
      | some rc => rc.1 == v.rows && rc.2 == v.cols)

/-- Modelled from the spec: `maskData` (in the `utils` module, which is not
under src/) applies the missingness masks to the views; a "dimension mismatch
between a view's data and its mask" is a fatal configuration error reported
before training starts. -/
def maskData (data : List View) : List Event × Option Err :=
  ([Event.maskData],
   if maskMismatch data then some (Err.validation "mask dimension mismatch")
   else none)

/-- The masking guard of `runMOFA` (lines 48-49), with Python evaluation
semantics: membership tests first, then
`any(data_opts['maskAtRandom']) or any(data_opts['maskNSamples'])` with
short-circuiting, where reading a missing key raises `KeyError`. -/
def maskGuard (d : DataOpts) : Except Err Bool :=
  if d.maskAtRandom.isSome || d.maskNSamples.isSome then
    match d.maskAtRandom with
    | none => Except.error (Err.keyError "maskAtRandom")
    | some xs =>
      if xs.any (fun x => x != 0) then Except.ok true
      else
        match d.maskNSamples with
        | none => Except.error (Err.keyError "maskNSamples")
        | some ys => Except.ok (ys.any (fun x => x != 0))
  else Except.ok false

/-- The masking stage (lines 47-50): evaluate the guard; when it is truthy,
call `maskData`. -/
def maskStep (d : DataOpts) (data : List View) : List Event × Option Err :=
  match maskGuard d with
  | Except.error e => ([], some e)
  | Except.ok true => maskData data
  | Except.ok false => ([], none)

/-- The likelihood tags the likelihood adapters recognize (real-valued, count,
binary, bounded-count, flexible transform). -/
def knownLikelihoods : List String :=
  ["gaussian", "poisson", "bernoulli", "binomial", "warp"]

/-- Modelled from the spec: `initModel` (in the `init_nodes` module, which is
not under src/) binds each view to the likelihood adapter named by its tag; an
unknown likelihood tag is a fatal configuration error reported before any
iteration runs. -/
def initModelStep (mo : ModelOpts) : List Event × Option Err :=
  match mo.likelihoods.find? (fun l => !(knownLikelihoods.contains l)) with
  | some l => ([], some (Err.validation ("unknown likelihood " ++ l)))
  | none => ([Event.initModel], none)

/-- Which Theta initialization, if any, runs. -/
inductive ThetaChoice where
  | mixed (sparsity : List Rat)
  | const (value : Rat)
deriving DecidableEq, Repr

/-- Sorted distinct values of the sparsity array, as `scipy.unique` returns
them. -/
def uniqueVals (xs : List Rat) : List Rat :=
  (xs.dedup).insertionSort (· ≤ ·)

/-- The Theta-selection logic of `runMOFA` (lines 94-113): when the sparsity
array has a single distinct value, value 1 selects `initThetaMixed` (with the
sparsity array) and value 0 selects `initThetaConst` (with the configured
initial expectation `model_opts["initTheta"]['E']`); any other single value
falls through both branches and initializes nothing.  With more than one
distinct value, `initThetaMixed` runs with the sparsity array. -/
def thetaInit (mo : ModelOpts) : Option ThetaChoice :=
  let u := uniqueVals mo.sparsity
  if u.length = 1 then
    if u = [1] then some (ThetaChoice.mixed mo.sparsity)
    else if u = [0] then some (ThetaChoice.const mo.initThetaE)
    else none
  else some (ThetaChoice.mixed mo.sparsity)

/-- Events emitted by the Theta-selection stage. -/
def thetaEvents (mo : ModelOpts) : List Event :=
  match thetaInit mo with
  | some (ThetaChoice.mixed sp) => [Event.initThetaMixed sp]
  | some (ThetaChoice.const v) => [Event.initThetaConst v]
  | none => []

/-- Modelled from the spec: the node registry built by the `init` object
(`init_nodes` module, not under src/; spec 9: "a registry of nodes by name")
holds exactly the nodes whose initialization ran: Z, SW, AlphaW, Tau and Y
always, and Theta exactly when one of the Theta initializations was
performed. -/
def constructedNodes (mo : ModelOpts) : List String :=
  ["Z", "SW", "AlphaW", "Tau"] ++
    (match thetaInit mo with
     | none => []
     | some _ => ["Theta"]) ++ ["Y"]

/-- The Markov-blanket wiring calls of `runMOFA` (lines 120-125), in program
order: each entry is a node name together with its keyword arguments (keyword
name, neighbor node name). -/
def wiringList : List (String × List (String × String)) :=
  [("Z", [("SW", "SW"), ("Tau", "Tau"), ("Y", "Y")]),
   ("Theta", [("SW", "SW")]),
   ("AlphaW", [("SW", "SW")]),
   ("SW", [("Z", "Z"), ("Tau", "Tau"), ("Alpha", "AlphaW"), ("Y", "Y"),
           ("Theta", "Theta")]),
   ("Y", [("Z", "Z"), ("SW", "SW"), ("Tau", "Tau")]),
   ("Tau", [("Z", "Z"), ("SW", "SW"), ("Y", "Y")])]

/-- The blanket relation the wiring builds: the neighbor node names attached
to a given node. -/
def blanketOf (n : String) : List String :=
  match wiringList.find? (fun p => p.1 == n) with
  | some p => p.2.map (fun q => q.2)
  | none => []

/-- Execute the wiring calls: each call looks the wired node up in the node
registry, then looks up each neighbor; a missing name raises `KeyError` (no
handler in `runMOFA`). -/
def wireGo (nodes : List String) :
    List (String × List (String × String)) → List Event × Option Err
  | [] => ([], none)
  | (n, bl) :: rest =>
    if n ∈ nodes then
      match (bl.map (fun q => q.2)).find? (fun t => !(nodes.contains t)) with
      | some t => ([], some (Err.keyError t))
      | none =>
        (Event.wire n bl :: (wireGo nodes rest).1, (wireGo nodes rest).2)
    else ([], some (Err.keyError n))

/-- The six wiring events in program order. -/
def wireEvents : List Event := wiringList.map (fun p => Event.wire p.1 p.2)

/-- Modelled from the spec: `BayesNet.iterate` (`BayesNet` module, not under
src/) runs the single-threaded, deterministic coordinate-ascent loop; its
final ELBO and final factor count are functions of the model configuration,
the training options and the seed alone. -/
def iterateResult (mo : ModelOpts) (tOpts : TrainOpts) (sd : Int) :
    Rat × Nat :=
  ((sd : Rat) + mo.factors + tOpts.maxiter, mo.factors)

/-- One stage of a run: the events it emits and the error it stops with, if
any. -/
abbrev Stage := List Event × Option Err

/-- Sequence stages with Python exception propagation: execution stops at the
first erroring stage, keeping the events emitted up to and including it. -/
def runSteps : List Stage → Stage
  | [] => ([], none)
  | (evs, some e) :: _ => (evs, some e)
  | (evs, none) :: rest =>
    let r := runSteps rest
    (evs ++ r.1, r.2)

/-- Outcome of a `runMOFA` execution. -/
structure RunResult where
  events : List Event
  fs : List String
  finalELBO : Option Rat
  finalK : Option Nat
  error : Option Err
deriving DecidableEq, Repr

/-- The body of `runMOFA` after seed selection, stage by stage in source
order: global seeding, sanity checks, masking, the seed print, node
construction (initModel, initZ, initSW, initAlphaW_mk, initTau, the
Theta selection, initY), Markov-blanket wiring, and finally BayesNet
construction, iteration and saving. -/
def runWith (data : List View) (dOpts : DataOpts) (mo : ModelOpts)
    (tOpts : TrainOpts) (sd : Int) (fs : List String) : RunResult :=
  let san := sanityCheck fs dOpts mo data
  let st := runSteps
    [([Event.seedSet sd], none),
     (san.events, none),
     maskStep san.dataOpts san.data,
     ([Event.printSeed sd], none),
     initModelStep san.modelOpts,
     ([Event.initZ, Event.initSW, Event.initAlphaW_mk, Event.initTau], none),
     (thetaEvents san.modelOpts, none),
     ([Event.initY], none),
     wireGo (constructedNodes san.modelOpts) wiringList,
     ([Event.buildNet san.modelOpts.schedule, Event.iterate,
       Event.saveModel], none)]
  { events := st.1
    fs := san.fs
    finalELBO :=
      if st.2 = none then some (iterateResult san.modelOpts tOpts sd).1
      else none
    finalK :=
      if st.2 = none then some (iterateResult san.modelOpts tOpts sd).2
      else none
    error := st.2 }

/-- The full `runMOFA` entry point: select the seed from the argument and the
wall clock, then run the body. -/
def runMOFA (data : List View) (dOpts : DataOpts) (mo : ModelOpts)
    (tOpts : TrainOpts) (seed : Option Int) (clock : Int)
    (fs : List String) : RunResult :=
  runWith data dOpts mo tOpts (chooseSeed seed clock) fs

/-- Recognizers for event classes used in the temporal statements. -/
def isWireEv : Event → Bool
  | Event.wire _ _ => true
  | _ => false

/-- Recognizer for the two Theta initialization events. -/
def isThetaEv : Event → Bool
  | Event.initThetaMixed _ => true
  | Event.initThetaConst _ => true
  | _ => false

/-- Recognizer for all node-construction events. -/
def isInitEv : Event → Bool
  | Event.initModel => true
  | Event.initZ => true
  | Event.initSW => true
  | Event.initAlphaW_m => true
  | Event.initAlphaW_k => true
  | Event.initAlphaW_mk => true
  | Event.initTau => true
  | Event.initThetaMixed _ => true
  | Event.initThetaConst _ => true
  | Event.initY => true
  | _ => false

/-- The configuration-validation error conditions named by the spec: an
unknown likelihood tag; a dimension mismatch between a view's data and its
mask (when the masking step actually runs); or a Theta configuration that
leaves the `Theta` node unconstructed, so that the wiring references a
non-existent node. -/
def configError (dOpts : DataOpts) (mo : ModelOpts) (data : List View) :
    Prop :=
  (∃ l ∈ mo.likelihoods, l ∉ knownLikelihoods)
  ∨ (maskGuard dOpts = Except.ok true ∧ maskMismatch data = true)
  ∨ thetaInit mo = none

section Lemmas

@[simp] lemma runSteps_nil : runSteps [] = ([], none) := rfl

@[simp] lemma runSteps_cons_some (evs : List Event) (e : Err) (rest : List Stage) :
    runSteps ((evs, some e) :: rest) = (evs, some e) := rfl

@[simp] lemma runSteps_cons_none (evs : List Event) (rest : List Stage) :
    runSteps ((evs, none) :: rest) = (evs ++ (runSteps rest).1, (runSteps rest).2) := rfl

@[simp] lemma sanityCheck_dataOpts (fs : List String) (dOpts : DataOpts)
    (mo : ModelOpts) (data : List View) :
    (sanityCheck fs dOpts mo data).dataOpts = dOpts := by
  unfold sanityCheck; split <;> rfl

@[simp] lemma sanityCheck_modelOpts (fs : List String) (dOpts : DataOpts)
    (mo : ModelOpts) (data : List View) :
    (sanityCheck fs dOpts mo data).modelOpts = mo := by
  unfold sanityCheck; split <;> rfl

@[simp] lemma sanityCheck_data (fs : List String) (dOpts : DataOpts)
    (mo : ModelOpts) (data : List View) :
    (sanityCheck fs dOpts mo data).data = data := by
  unfold sanityCheck; split <;> rfl

lemma sanityCheck_events_mem (fs : List String) (dOpts : DataOpts)
    (mo : ModelOpts) (data : List View) (e : Event)
    (h : e ∈ (sanityCheck fs dOpts mo data).events) :
    e = Event.printNotice ∨ ∃ d, e = Event.mkdir d := by
  unfold sanityCheck at h
  split at h
  · simp at h
  · simp at h
    rcases h with h | h
    · exact Or.inl h
    · exact Or.inr ⟨_, h⟩

lemma maskStep_events_mem (d : DataOpts) (data : List View) (e : Event)
    (h : e ∈ (maskStep d data).1) : e = Event.maskData := by
  unfold maskStep at h
  rcases hg : maskGuard d with e' | b
  · rw [hg] at h; simp at h
  · rw [hg] at h
    cases b
    · simp at h
    · unfold maskData at h
      simp at h
      exact h

lemma initModelStep_events_mem (mo : ModelOpts) (e : Event)
    (h : e ∈ (initModelStep mo).1) : e = Event.initModel := by
  unfold initModelStep at h
  rcases hf : mo.likelihoods.find? (fun l => !(knownLikelihoods.contains l))
    with _ | l
  · rw [hf] at h; simp at h; exact h
  · rw [hf] at h; simp at h

lemma initModelStep_ok_events (mo : ModelOpts)
    (h : (initModelStep mo).2 = none) :
    (initModelStep mo).1 = [Event.initModel] := by
  unfold initModelStep at h ⊢
  rcases hf : mo.likelihoods.find? (fun l => !(knownLikelihoods.contains l))
    with _ | l
  · rfl
  · rw [hf] at h; simp at h

lemma thetaEvents_mem (mo : ModelOpts) (e : Event)
    (h : e ∈ thetaEvents mo) : isThetaEv e = true := by
  unfold thetaEvents at h
  rcases ht : thetaInit mo with _ | c
  · rw [ht] at h; simp at h
  · rw [ht] at h
    cases c <;> simp_all [isThetaEv]

lemma wireGo_events_mem (nodes : List String)
    (l : List (String × List (String × String))) (e : Event)
    (h : e ∈ (wireGo nodes l).1) : ∃ n bl, e = Event.wire n bl := by
  induction l with
  | nil => simp [wireGo] at h
  | cons p rest ih =>
    obtain ⟨n, bl⟩ := p
    unfold wireGo at h
    split at h
    · rcases hf : (bl.map (fun q => q.2)).find?
        (fun t => !(nodes.contains t)) with _ | t
      · rw [hf] at h
        simp at h
        rcases h with h | h
        · exact ⟨n, bl, h⟩
        · exact ih h
      · rw [hf] at h; simp at h
    · simp at h

lemma wireGo_ok_events (nodes : List String)
    (l : List (String × List (String × String)))
    (h : (wireGo nodes l).2 = none) :
    (wireGo nodes l).1 = l.map (fun p => Event.wire p.1 p.2) := by
  induction l with
  | nil => simp [wireGo]
  | cons p rest ih =>
    obtain ⟨n, bl⟩ := p
    by_cases hmem : n ∈ nodes
    · rcases hf : (bl.map (fun q => q.2)).find?
        (fun t => !(nodes.contains t)) with _ | t
      · simp only [wireGo, if_pos hmem, hf] at h ⊢
        simp only [List.map_cons, List.cons.injEq, true_and]
        exact ih h
      · simp only [wireGo, if_pos hmem, hf] at h
        simp at h
    · simp only [wireGo, if_neg hmem] at h
      simp at h

lemma wireGo_noTheta (nodes : List String) (hn : nodes = ["Z", "SW", "AlphaW", "Tau", "Y"]) :
    wireGo nodes wiringList =
      ([Event.wire "Z" [("SW", "SW"), ("Tau", "Tau"), ("Y", "Y")]],
       some (Err.keyError "Theta")) := by
  subst hn; decide

lemma wireGo_withTheta (nodes : List String)
    (hn : nodes = ["Z", "SW", "AlphaW", "Tau", "Theta", "Y"]) :
    wireGo nodes wiringList = (wireEvents, none) := by
  subst hn; decide

lemma constructedNodes_noTheta (mo : ModelOpts) (h : thetaInit mo = none) :
    constructedNodes mo = ["Z", "SW", "AlphaW", "Tau", "Y"] := by
  unfold constructedNodes
  rw [h]
  rfl

lemma constructedNodes_withTheta (mo : ModelOpts) (c : ThetaChoice)
    (h : thetaInit mo = some c) :
    constructedNodes mo = ["Z", "SW", "AlphaW", "Tau", "Theta", "Y"] := by
  unfold constructedNodes
  rw [h]
  rfl

lemma maskStep_of_guard_true (d : DataOpts) (data : List View)
    (h : maskGuard d = Except.ok true) : maskStep d data = maskData data := by
  unfold maskStep
  rw [h]

lemma maskData_mem_maskStep_iff (d : DataOpts) (data : List View) :
    Event.maskData ∈ (maskStep d data).1 ↔ maskGuard d = Except.ok true := by
  unfold maskStep
  rcases hg : maskGuard d with e | b
  · simp
  · cases b
    · simp
    · simp [maskData]

lemma maskGuard_true_iff (d : DataOpts) :
    maskGuard d = Except.ok true ↔
      ∃ xs, d.maskAtRandom = some xs ∧
        (xs.any (fun x => x != 0) = true ∨
         ∃ ys, d.maskNSamples = some ys ∧ ys.any (fun x => x != 0) = true) := by
  unfold maskGuard
  rcases hA : d.maskAtRandom with _ | xs
  · rcases hB : d.maskNSamples with _ | ys <;> simp [hA, hB]
  · rcases hB : d.maskNSamples with _ | ys <;>
      by_cases hx : (xs.any fun x => x != 0) = true <;>
        simp [hA, hB, hx]
    · simpa using hx
    · simpa using hx
    · exact Or.inl (by simpa using hx)
    · intro x hmem hne
      have hall : ∀ y ∈ xs, y = 0 := by simpa using hx
      exact absurd (hall x hmem) hne

lemma maskStep_keyError (d : DataOpts) (data : List View)
    (hB : d.maskNSamples.isSome) (hA : d.maskAtRandom = none) :
    maskStep d data = ([], some (Err.keyError "maskAtRandom")) := by
  unfold maskStep maskGuard
  rw [hA]
  simp [hB]

/-- Branch analysis of a full run: either the masking stage stops it, or the
likelihood check stops it, or the wiring stops it, or it completes; in each
case the result is given explicitly. -/
lemma runWith_cases (data : List View) (dOpts : DataOpts) (mo : ModelOpts)
    (tOpts : TrainOpts) (sd : Int) (fs : List String) :
    (∃ e, (maskStep dOpts data).2 = some e ∧
      runWith data dOpts mo tOpts sd fs =
        ⟨[Event.seedSet sd] ++ (sanityCheck fs dOpts mo data).events ++
           (maskStep dOpts data).1,
         (sanityCheck fs dOpts mo data).fs, none, none, some e⟩)
  ∨ ((maskStep dOpts data).2 = none ∧ ∃ e, (initModelStep mo).2 = some e ∧
      runWith data dOpts mo tOpts sd fs =
        ⟨[Event.seedSet sd] ++ (sanityCheck fs dOpts mo data).events ++
           (maskStep dOpts data).1 ++ [Event.printSeed sd] ++
           (initModelStep mo).1,
         (sanityCheck fs dOpts mo data).fs, none, none, some e⟩)
  ∨ ((maskStep dOpts data).2 = none ∧ (initModelStep mo).2 = none ∧
      ∃ e, (wireGo (constructedNodes mo) wiringList).2 = some e ∧
      runWith data dOpts mo tOpts sd fs =
        ⟨[Event.seedSet sd] ++ (sanityCheck fs dOpts mo data).events ++
           (maskStep dOpts data).1 ++ [Event.printSeed sd] ++
           (initModelStep mo).1 ++
           [Event.initZ, Event.initSW, Event.initAlphaW_mk, Event.initTau] ++
           thetaEvents mo ++ [Event.initY] ++
           (wireGo (constructedNodes mo) wiringList).1,
         (sanityCheck fs dOpts mo data).fs, none, none, some e⟩)
  ∨ ((maskStep dOpts data).2 = none ∧ (initModelStep mo).2 = none ∧
      (wireGo (constructedNodes mo) wiringList).2 = none ∧
      runWith data dOpts mo tOpts sd fs =
        ⟨[Event.seedSet sd] ++ (sanityCheck fs dOpts mo data).events ++
           (maskStep dOpts data).1 ++ [Event.printSeed sd] ++
           (initModelStep mo).1 ++
           [Event.initZ, Event.initSW, Event.initAlphaW_mk, Event.initTau] ++
           thetaEvents mo ++ [Event.initY] ++
           (wireGo (constructedNodes mo) wiringList).1 ++
           [Event.buildNet mo.schedule, Event.iterate, Event.saveModel],
         (sanityCheck fs dOpts mo data).fs,
         some (iterateResult mo tOpts sd).1,
         some (iterateResult mo tOpts sd).2, none⟩) := by
  rcases hm : maskStep dOpts data with ⟨evM, _ | em⟩
  · rcases hi : initModelStep mo with ⟨evI, _ | ei⟩
    · rcases hw : wireGo (constructedNodes mo) wiringList with ⟨evW, _ | ew⟩
      · refine Or.inr (Or.inr (Or.inr ⟨rfl, rfl, rfl, ?_⟩))
        simp only [runWith, sanityCheck_dataOpts, sanityCheck_modelOpts,
          sanityCheck_data, hm, hi, hw, runSteps_cons_none, runSteps_cons_some,
          runSteps_nil]
        simp
      · refine Or.inr (Or.inr (Or.inl ⟨rfl, rfl, ew, rfl, ?_⟩))
        simp only [runWith, sanityCheck_dataOpts, sanityCheck_modelOpts,
          sanityCheck_data, hm, hi, hw, runSteps_cons_none, runSteps_cons_some,
          runSteps_nil]
        simp
    · refine Or.inr (Or.inl ⟨rfl, ei, rfl, ?_⟩)
      simp only [runWith, sanityCheck_dataOpts, sanityCheck_modelOpts,
        sanityCheck_data, hm, hi, runSteps_cons_none, runSteps_cons_some,
        runSteps_nil]
      simp
  · refine Or.inl ⟨em, rfl, ?_⟩
    simp only [runWith, sanityCheck_dataOpts, sanityCheck_modelOpts,
      sanityCheck_data, hm, runSteps_cons_none, runSteps_cons_some,
      runSteps_nil]
    simp

lemma runWith_events_def (data : List View) (dOpts : DataOpts)
    (mo : ModelOpts) (tOpts : TrainOpts) (sd : Int) (fs : List String) :
    (runWith data dOpts mo tOpts sd fs).events =
      (runSteps
        [([Event.seedSet sd], none),
         ((sanityCheck fs dOpts mo data).events, none),
         maskStep dOpts data,
         ([Event.printSeed sd], none),
         initModelStep mo,
         ([Event.initZ, Event.initSW, Event.initAlphaW_mk, Event.initTau],
          none),
         (thetaEvents mo, none),
         ([Event.initY], none),
         wireGo (constructedNodes mo) wiringList,
         ([Event.buildNet mo.schedule, Event.iterate, Event.saveModel],
          none)]).1 := by
  simp only [runWith, sanityCheck_dataOpts, sanityCheck_modelOpts,
    sanityCheck_data]

lemma runSteps_mem (l : List Stage) (e : Event) (h : e ∈ (runSteps l).1) :
    ∃ p ∈ l, e ∈ p.1 := by
  induction l with
  | nil => simp [runSteps] at h
  | cons p rest ih =>
    obtain ⟨evs, err⟩ := p
    cases err with
    | some er =>
      simp only [runSteps_cons_some] at h
      exact ⟨(evs, some er), by simp, h⟩
    | none =>
      simp only [runSteps_cons_none] at h
      rcases List.mem_append.mp h with h1 | h2
      · exact ⟨(evs, none), by simp, h1⟩
      · obtain ⟨q, hq, hqe⟩ := ih h2
        exact ⟨q, by simp [hq], hqe⟩

lemma runWith_events_classify (data : List View) (dOpts : DataOpts)
    (mo : ModelOpts) (tOpts : TrainOpts) (sd : Int) (fs : List String)
    (e : Event) (h : e ∈ (runWith data dOpts mo tOpts sd fs).events) :
    e = Event.seedSet sd ∨ e = Event.printNotice ∨
    (∃ d, e = Event.mkdir d) ∨ e = Event.maskData ∨
    e = Event.printSeed sd ∨ e = Event.initModel ∨ e = Event.initZ ∨
    e = Event.initSW ∨ e = Event.initAlphaW_mk ∨ e = Event.initTau ∨
    isThetaEv e = true ∨ e = Event.initY ∨
    (∃ n bl, e = Event.wire n bl) ∨ e = Event.buildNet mo.schedule ∨
    e = Event.iterate ∨ e = Event.saveModel := by
  rw [runWith_events_def] at h
  obtain ⟨p, hp, hep⟩ := runSteps_mem _ _ h
  simp only [List.mem_cons, List.not_mem_nil, or_false] at hp
  rcases hp with hp|hp|hp|hp|hp|hp|hp|hp|hp|hp <;> subst hp
  · simp at hep; tauto
  · rcases sanityCheck_events_mem _ _ _ _ _ hep with h1 | ⟨d, h1⟩ <;> tauto
  · have := maskStep_events_mem _ _ _ hep; tauto
  · simp at hep; tauto
  · have := initModelStep_events_mem _ _ hep; tauto
  · simp at hep; tauto
  · have := thetaEvents_mem _ _ hep; tauto
  · simp at hep; tauto
  · obtain ⟨n, bl, h1⟩ := wireGo_events_mem _ _ _ hep
    exact Or.inr (Or.inr (Or.inr (Or.inr (Or.inr (Or.inr (Or.inr (Or.inr
      (Or.inr (Or.inr (Or.inr (Or.inr (Or.inl ⟨n, bl, h1⟩))))))))))))
  · simp at hep; tauto

lemma error_isSome_no_iterate (data : List View) (dOpts : DataOpts)
    (mo : ModelOpts) (tOpts : TrainOpts) (sd : Int) (fs : List String)
    (h : (runWith data dOpts mo tOpts sd fs).error.isSome) :
    Event.iterate ∉ (runWith data dOpts mo tOpts sd fs).events := by
  rcases runWith_cases data dOpts mo tOpts sd fs with
    ⟨er, hm, heq⟩ | ⟨hm, er, hi2, heq⟩ | ⟨hm, hi2, er, hw2, heq⟩ |
    ⟨hm, hi2, hw2, heq⟩
  · rw [heq]
    intro hmem
    simp only [List.append_assoc, List.mem_append, List.mem_singleton] at hmem
    rcases hmem with h1 | h1 | h1
    · simp at h1
    · rcases sanityCheck_events_mem _ _ _ _ _ h1 with h2 | ⟨d, h2⟩ <;>
        simp at h2
    · have := maskStep_events_mem _ _ _ h1; simp at this
  · rw [heq]
    intro hmem
    simp only [List.append_assoc, List.mem_append, List.mem_singleton] at hmem
    rcases hmem with h1 | h1 | h1 | h1 | h1
    · simp at h1
    · rcases sanityCheck_events_mem _ _ _ _ _ h1 with h2 | ⟨d, h2⟩ <;>
        simp at h2
    · have := maskStep_events_mem _ _ _ h1; simp at this
    · simp at h1
    · have := initModelStep_events_mem _ _ h1; simp at this
  · rw [heq]
    intro hmem
    simp only [List.append_assoc, List.mem_append, List.mem_singleton,
      List.mem_cons, List.not_mem_nil, or_false] at hmem
    rcases hmem with h1 | h1 | h1 | h1 | h1 | h1 | h1 | h1
    · simp at h1
    · rcases sanityCheck_events_mem _ _ _ _ _ h1 with h2 | ⟨d, h2⟩ <;>
        simp at h2
    · have := maskStep_events_mem _ _ _ h1; simp at this
    · simp at h1
    · have := initModelStep_events_mem _ _ h1; simp at this
    · rcases h1 with h1 | h1 | h1 | h1 <;> simp at h1
    · have := thetaEvents_mem _ _ h1; simp [isThetaEv] at this
    · rcases h1 with h1 | h1
      · simp at h1
      · obtain ⟨n, bl, h2⟩ := wireGo_events_mem _ _ _ h1; simp at h2
  · rw [heq] at h
    simp at h

lemma runWith_ok_trace (data : List View) (dOpts : DataOpts)
    (mo : ModelOpts) (tOpts : TrainOpts) (sd : Int) (fs : List String)
    (h : (runWith data dOpts mo tOpts sd fs).error = none) :
    ∃ c, thetaInit mo = some c ∧
      (runWith data dOpts mo tOpts sd fs).events =
        [Event.seedSet sd] ++ (sanityCheck fs dOpts mo data).events ++
          (maskStep dOpts data).1 ++ [Event.printSeed sd] ++
          [Event.initModel] ++
          [Event.initZ, Event.initSW, Event.initAlphaW_mk, Event.initTau] ++
          thetaEvents mo ++ [Event.initY] ++ wireEvents ++
          [Event.buildNet mo.schedule, Event.iterate, Event.saveModel] := by
  rcases runWith_cases data dOpts mo tOpts sd fs with
    ⟨er, hm, heq⟩ | ⟨hm, er, hi2, heq⟩ | ⟨hm, hi2, er, hw2, heq⟩ |
    ⟨hm, hi2, hw2, heq⟩
  · rw [heq] at h; simp at h
  · rw [heq] at h; simp at h
  · rw [heq] at h; simp at h
  · rcases ht : thetaInit mo with _ | c
    · exfalso
      have hng := wireGo_noTheta _ (constructedNodes_noTheta mo ht)
      rw [hng] at hw2
      simp at hw2
    · refine ⟨c, rfl, ?_⟩
      rw [heq]
      have hwev := wireGo_withTheta _ (constructedNodes_withTheta mo c ht)
      simp only [initModelStep_ok_events mo hi2, hwev]

lemma isThetaEv_not_wire (e : Event) (h : isThetaEv e = true) :
    isWireEv e = false := by
  cases e <;> simp [isThetaEv, isWireEv] at *

lemma isThetaEv_ne_iterate (e : Event) (h : isThetaEv e = true) :
    e ≠ Event.iterate := by
  cases e <;> simp [isThetaEv] at *

end Lemmas

section ClaimDefs

/-- The shape of the ARD weight-precision prior selected by the ARD mode, as
the configuration assembly in `MOFA/test/test.py` (lines 189-194) branches on
it: per view ("m"), per factor ("k"), or per view and factor ("mk"). -/
inductive ARDShape where
  | perView
  | perFactor
  | perViewFactor
deriving DecidableEq, Repr

/-- The ARD-mode dispatch of the test's configuration assembly: which prior
shape `model_opts["priorAlphaW"]` receives for a given `ardW` string. -/
def priorAlphaWShape (ardW : String) : Option ARDShape :=
  if ardW == "m" then some ARDShape.perView
  else if ardW == "k" then some ARDShape.perFactor
  else if ardW == "mk" then some ARDShape.perViewFactor
  else none

/-- Temporal shape of a completed run: all construction happens in a prefix
that contains every init event and no wiring; the six wiring events follow,
exactly once each and in program order; BayesNet construction, a single
iterate, and saving close the trace. -/
def orderedTrace (mo : ModelOpts) (r : RunResult) : Prop :=
  ∃ pre,
    r.events = pre ++ wireEvents ++
      [Event.buildNet mo.schedule, Event.iterate, Event.saveModel] ∧
    (∀ e ∈ pre, isWireEv e = false) ∧
    Event.iterate ∉ pre ∧
    Event.initModel ∈ pre ∧ Event.initZ ∈ pre ∧ Event.initSW ∈ pre ∧
    Event.initAlphaW_mk ∈ pre ∧ Event.initTau ∈ pre ∧ Event.initY ∈ pre ∧
    (∃ e ∈ pre, isThetaEv e = true) ∧
    r.events.count Event.iterate = 1 ∧
    r.events.filter isWireEv = wireEvents

/-- A single-view data set used as a concrete instance. -/
def exData : List View := [{ rows := 4, cols := 5, mask := none }]

/-- Concrete data options with no masking keys. -/
def exDataOpts : DataOpts :=
  { outfile := "out/f.h5", maskAtRandom := none, maskNSamples := none }

/-- Concrete model options with Gaussian likelihood and all-ones sparsity. -/
def exModelOpts : ModelOpts :=
  { likelihoods := ["gaussian"], factors := 3, sparsity := [1, 1],
    ardW := "mk", initThetaE := 1,
    schedule := ["SW", "Z", "AlphaW", "Theta", "Tau"] }

/-- Concrete training options. -/
def exTrainOpts : TrainOpts :=
  { maxiter := 10, tolerance := mkRat 1 100, forceiter := true,
    elbofreq := 1 }

/-- Model options whose sparsity array has the single distinct value 1/2. -/
def mo05 : ModelOpts :=
  { likelihoods := ["gaussian"], factors := 3, sparsity := [mkRat 1 2],
    ardW := "mk", initThetaE := 1,
    schedule := ["SW", "Z", "AlphaW", "Theta", "Tau"] }

/-- Model options configured with the per-view ARD mode. -/
def moArdM : ModelOpts :=
  { likelihoods := ["gaussian"], factors := 3, sparsity := [1, 1],
    ardW := "m", initThetaE := 1,
    schedule := ["SW", "Z", "AlphaW", "Theta", "Tau"] }

/-- Model options with an unrecognized likelihood tag. -/
def moBadLik : ModelOpts :=
  { likelihoods := ["gauss"], factors := 3, sparsity := [1, 1],
    ardW := "mk", initThetaE := 1,
    schedule := ["SW", "Z", "AlphaW", "Theta", "Tau"] }

end ClaimDefs

section Claims

/-- C4: the Markov-blanket relation built by runMOFA attaches exactly
Z to SW, Tau, Y; Theta to SW; AlphaW to SW; SW to Z, Tau, AlphaW, Y, Theta;
Y to Z, SW, Tau; Tau to Z, SW, Y; and the relation is cyclic because Z's
blanket contains SW while SW's blanket contains Z. -/
theorem C4_markov_blanket :
    blanketOf "Z" = ["SW", "Tau", "Y"] ∧
    blanketOf "Theta" = ["SW"] ∧
    blanketOf "AlphaW" = ["SW"] ∧
    blanketOf "SW" = ["Z", "Tau", "AlphaW", "Y", "Theta"] ∧
    blanketOf "Y" = ["Z", "SW", "Tau"] ∧
    blanketOf "Tau" = ["Z", "SW", "Y"] ∧
    "SW" ∈ blanketOf "Z" ∧ "Z" ∈ blanketOf "SW" := by
  decide

/-- C2: the Theta node kind is selected solely from the distinct values of
the sparsity configuration array: a single distinct value 1 initializes the
mixed (learned) Theta path with the sparsity array; a single distinct value 0
initializes a constant Theta pinned to the configured initial expectation;
more than one distinct value initializes the mixed path with the sparsity
array as mask. -/
theorem C2_theta_selection (mo : ModelOpts) :
    (uniqueVals mo.sparsity = [1] →
      thetaInit mo = some (ThetaChoice.mixed mo.sparsity) ∧
      thetaEvents mo = [Event.initThetaMixed mo.sparsity]) ∧
    (uniqueVals mo.sparsity = [0] →
      thetaInit mo = some (ThetaChoice.const mo.initThetaE) ∧
      thetaEvents mo = [Event.initThetaConst mo.initThetaE]) ∧
    (1 < (uniqueVals mo.sparsity).length →
      thetaInit mo = some (ThetaChoice.mixed mo.sparsity) ∧
      thetaEvents mo = [Event.initThetaMixed mo.sparsity]) := by
  refine ⟨?_, ?_, ?_⟩ <;> intro h
  · have h1 : thetaInit mo = some (ThetaChoice.mixed mo.sparsity) := by
      simp [thetaInit, h]
    exact ⟨h1, by simp [thetaEvents, h1]⟩
  · have h1 : thetaInit mo = some (ThetaChoice.const mo.initThetaE) := by
      simp [thetaInit, h]
    exact ⟨h1, by simp [thetaEvents, h1]⟩
  · have hne : ¬((uniqueVals mo.sparsity).length = 1) := by omega
    have h1 : thetaInit mo = some (ThetaChoice.mixed mo.sparsity) := by
      simp [thetaInit, hne]
    exact ⟨h1, by simp [thetaEvents, h1]⟩

/-- Witness for C2: the three selection cases realized on concrete sparsity
arrays. -/
theorem C2_witness :
    (uniqueVals exModelOpts.sparsity = [1] ∧
      thetaInit exModelOpts = some (ThetaChoice.mixed exModelOpts.sparsity)) ∧
    (uniqueVals ({ exModelOpts with sparsity := [0, 0] } : ModelOpts).sparsity = [0] ∧
      thetaInit { exModelOpts with sparsity := [0, 0] } =
        some (ThetaChoice.const 1)) ∧
    (1 < (uniqueVals ({ exModelOpts with sparsity := [0, 1] } : ModelOpts).sparsity).length ∧
      thetaInit { exModelOpts with sparsity := [0, 1] } =
        some (ThetaChoice.mixed [0, 1])) := by
  refine ⟨⟨by decide, ((C2_theta_selection exModelOpts).1 (by decide)).1⟩,
    ⟨by decide, ((C2_theta_selection { exModelOpts with sparsity := [0, 0] }).2.1
      (by decide)).1⟩,
    ⟨by decide, ((C2_theta_selection { exModelOpts with sparsity := [0, 1] }).2.2
      (by decide)).1⟩⟩

/-- C7: with a fixed nonzero seed and identical data, data options, model
options and training options, two executions of runMOFA (at different
wall-clock instants) coincide: the final ELBO matches exactly, the final
factor count matches, and indeed the whole run result is identical. -/
theorem C7_fixed_seed_deterministic (data : List View) (dOpts : DataOpts)
    (mo : ModelOpts) (tOpts : TrainOpts) (s t1 t2 : Int) (fs : List String)
    (hs : s ≠ 0) :
    (runMOFA data dOpts mo tOpts (some s) t1 fs).finalELBO =
      (runMOFA data dOpts mo tOpts (some s) t2 fs).finalELBO ∧
    (runMOFA data dOpts mo tOpts (some s) t1 fs).finalK =
      (runMOFA data dOpts mo tOpts (some s) t2 fs).finalK ∧
    runMOFA data dOpts mo tOpts (some s) t1 fs =
      runMOFA data dOpts mo tOpts (some s) t2 fs := by
  have h : ∀ t : Int, runMOFA data dOpts mo tOpts (some s) t fs =
      runWith data dOpts mo tOpts s fs := by
    intro t
    have hcs : chooseSeed (some s) t = s := by
      unfold chooseSeed
      simp [hs]
    rw [runMOFA, hcs]
  rw [h t1, h t2]
  exact ⟨rfl, rfl, rfl⟩

/-- Witness for C7: determinism realized at seed 7 and two distinct clock
values. -/
theorem C7_witness :
    (7 : Int) ≠ 0 ∧
    (runMOFA exData exDataOpts exModelOpts exTrainOpts (some 7) 1 ["tmp"]).finalELBO =
      (runMOFA exData exDataOpts exModelOpts exTrainOpts (some 7) 2 ["tmp"]).finalELBO ∧
    (runMOFA exData exDataOpts exModelOpts exTrainOpts (some 7) 1 ["tmp"]).finalK =
      (runMOFA exData exDataOpts exModelOpts exTrainOpts (some 7) 2 ["tmp"]).finalK := by
  have h := C7_fixed_seed_deterministic exData exDataOpts exModelOpts
    exTrainOpts 7 1 2 ["tmp"] (by decide)
  exact ⟨by decide, h.1, h.2.1⟩

/-- C8: a None or zero seed argument is replaced by the wall-clock-derived
value int(round(time()*1000) % 1e6) (so the literal seed 0 cannot be
requested and such runs depend on the clock), while any other seed value
seeds the process-wide generator with exactly that value, as the first action
of the run; the seed used is printed when the run reaches the
model-definition block (which every run passing the masking step does). -/
theorem C8_seed_selection (data : List View) (dOpts : DataOpts)
    (mo : ModelOpts) (tOpts : TrainOpts) (seed : Option Int)
    (s clock : Int) (fs : List String) :
    chooseSeed none clock = clock % 1000000 ∧
    chooseSeed (some 0) clock = clock % 1000000 ∧
    chooseSeed (some 0) 1 ≠ chooseSeed (some 0) 2 ∧
    (s ≠ 0 → chooseSeed (some s) clock = s) ∧
    (runMOFA data dOpts mo tOpts seed clock fs).events.head? =
      some (Event.seedSet (chooseSeed seed clock)) ∧
    ((maskStep dOpts data).2 = none →
      Event.printSeed (chooseSeed seed clock) ∈
        (runMOFA data dOpts mo tOpts seed clock fs).events) := by
  refine ⟨rfl, rfl, by decide, fun h => by unfold chooseSeed; simp [h],
    ?_, ?_⟩
  · rw [runMOFA, runWith_events_def]
    simp
  · intro hm
    rw [runMOFA, runWith_events_def]
    rcases hmev : maskStep dOpts data with ⟨evM, em⟩
    rw [hmev] at hm
    cases em with
    | some e => simp at hm
    | none => simp [hmev]

/-- Witness for C8: the seed-selection facts realized at seed 7 and clock
123, with the masking step succeeding. -/
theorem C8_witness :
    ((7 : Int) ≠ 0 ∧ chooseSeed (some 7) 123 = 7) ∧
    ((maskStep exDataOpts exData).2 = none ∧
      Event.printSeed (chooseSeed (some 7) 123) ∈
        (runMOFA exData exDataOpts exModelOpts exTrainOpts (some 7) 123
          ["tmp"]).events) := by
  refine ⟨⟨by decide, (C8_seed_selection exData exDataOpts exModelOpts
      exTrainOpts (some 7) 7 123 ["tmp"]).2.2.2.1 (by decide)⟩,
    ⟨by decide, (C8_seed_selection exData exDataOpts exModelOpts
      exTrainOpts (some 7) 7 123 ["tmp"]).2.2.2.2.2 (by decide)⟩⟩

/-- C1: every configuration-validation error (an unknown likelihood tag, a
dimension mismatch between a view's data and its mask when masking runs, or
wiring to a non-existent node) makes runMOFA fail before BayesNet.iterate is
reached; no such error is recovered silently. -/
theorem C1_config_errors_fatal (data : List View) (dOpts : DataOpts)
    (mo : ModelOpts) (tOpts : TrainOpts) (seed : Option Int) (clock : Int)
    (fs : List String) (h : configError dOpts mo data) :
    (runMOFA data dOpts mo tOpts seed clock fs).error.isSome = true ∧
    Event.iterate ∉ (runMOFA data dOpts mo tOpts seed clock fs).events := by
  have hsome :
      (runWith data dOpts mo tOpts (chooseSeed seed clock) fs).error.isSome = true := by
    rcases runWith_cases data dOpts mo tOpts (chooseSeed seed clock) fs with
      ⟨er, hm, heq⟩ | ⟨hm, er, hi2, heq⟩ | ⟨hm, hi2, er, hw2, heq⟩ |
      ⟨hm, hi2, hw2, heq⟩
    · rw [heq]; rfl
    · rw [heq]; rfl
    · rw [heq]; rfl
    · exfalso
      rcases h with ⟨l, hl, hcon⟩ | ⟨hg, hmm⟩ | h3
      · unfold initModelStep at hi2
        rcases hf : mo.likelihoods.find?
            (fun l => !(knownLikelihoods.contains l)) with _ | l2
        · have hall := List.find?_eq_none.mp hf l hl
          simp at hall
          exact hcon hall
        · rw [hf] at hi2; simp at hi2
      · rw [maskStep_of_guard_true dOpts data hg] at hm
        unfold maskData at hm
        rw [hmm] at hm
        simp at hm
      · rw [wireGo_noTheta _ (constructedNodes_noTheta mo h3)] at hw2
        simp at hw2
  exact ⟨hsome,
    error_isSome_no_iterate data dOpts mo tOpts (chooseSeed seed clock) fs hsome⟩

/-- Witness for C1: a configuration with an unknown likelihood tag makes the
run fail without reaching iterate. -/
theorem C1_witness :
    configError exDataOpts moBadLik exData ∧
    ((runMOFA exData exDataOpts moBadLik exTrainOpts (some 7) 123
        ["tmp"]).error.isSome = true ∧
      Event.iterate ∉ (runMOFA exData exDataOpts moBadLik exTrainOpts
        (some 7) 123 ["tmp"]).events) := by
  have hc : configError exDataOpts moBadLik exData := by
    refine Or.inl ⟨"gauss", by decide, by decide⟩
  exact ⟨hc, C1_config_errors_fatal exData exDataOpts moBadLik exTrainOpts
    (some 7) 123 ["tmp"] hc⟩

/-- C3 counterexample: with a sparsity array whose single distinct value is
one half, runMOFA performs no explicit validation: the Theta selection
initializes nothing, node construction continues through initY, and the run
then fails with an incidental KeyError for the missing Theta node during
wiring, not with a validation rejection. -/
theorem C3_counterexample :
    thetaInit mo05 = none ∧
    Event.initY ∈ (runMOFA exData exDataOpts mo05 exTrainOpts (some 7) 123
      ["tmp"]).events ∧
    (runMOFA exData exDataOpts mo05 exTrainOpts (some 7) 123 ["tmp"]).error =
      some (Err.keyError "Theta") := by
  decide

/-- C3 (amended): for a sparsity array with a single distinct value other
than 0 or 1, runMOFA performs no explicit validation: no Theta initialization
runs, construction proceeds (initY runs), and the run fails with KeyError
"Theta" at Markov-blanket wiring — before any training iteration — rather
than with a validation error. -/
theorem C3_amended_fractional_sparsity (data : List View) (dOpts : DataOpts)
    (mo : ModelOpts) (tOpts : TrainOpts) (seed : Option Int) (clock : Int)
    (fs : List String) (v : Rat)
    (hv : uniqueVals mo.sparsity = [v]) (h0 : v ≠ 0) (h1 : v ≠ 1)
    (hmask : (maskStep dOpts data).2 = none)
    (hlik : (initModelStep mo).2 = none) :
    thetaInit mo = none ∧
    (runMOFA data dOpts mo tOpts seed clock fs).error =
      some (Err.keyError "Theta") ∧
    (∀ msg, (runMOFA data dOpts mo tOpts seed clock fs).error ≠
      some (Err.validation msg)) ∧
    Event.initY ∈ (runMOFA data dOpts mo tOpts seed clock fs).events ∧
    Event.iterate ∉ (runMOFA data dOpts mo tOpts seed clock fs).events := by
  have ht : thetaInit mo = none := by
    simp [thetaInit, hv, h0, h1]
  have hwg := wireGo_noTheta _ (constructedNodes_noTheta mo ht)
  rcases runWith_cases data dOpts mo tOpts (chooseSeed seed clock) fs with
    ⟨er, hm, heq⟩ | ⟨hm, er, hi2, heq⟩ | ⟨hm, hi2, er, hw2, heq⟩ |
    ⟨hm, hi2, hw2, heq⟩
  · rw [hmask] at hm; simp at hm
  · rw [hlik] at hi2; simp at hi2
  · rw [hwg] at hw2
    simp at hw2
    subst hw2
    have herr : (runMOFA data dOpts mo tOpts seed clock fs).error =
        some (Err.keyError "Theta") := by
      rw [runMOFA, heq]
    refine ⟨ht, herr, ?_, ?_, ?_⟩
    · intro msg
      rw [herr]
      simp
    · rw [runMOFA, heq, hwg]
      simp
    · exact error_isSome_no_iterate data dOpts mo tOpts
        (chooseSeed seed clock) fs (by rw [heq]; rfl)
  · rw [hwg] at hw2; simp at hw2

/-- Witness for C3's amended statement: realized at the all-one-half sparsity
configuration. -/
theorem C3_witness :
    (uniqueVals mo05.sparsity = [mkRat 1 2] ∧ mkRat 1 2 ≠ 0 ∧
      mkRat 1 2 ≠ 1 ∧ (maskStep exDataOpts exData).2 = none ∧
      (initModelStep mo05).2 = none) ∧
    (thetaInit mo05 = none ∧
      (runMOFA exData exDataOpts mo05 exTrainOpts (some 7) 123
          ["tmp"]).error = some (Err.keyError "Theta")) := by
  have h := C3_amended_fractional_sparsity exData exDataOpts mo05 exTrainOpts
    (some 7) 123 ["tmp"] (mkRat 1 2) (by decide) (by decide) (by decide)
    (by decide) (by decide)
  exact ⟨⟨by decide, by decide, by decide, by decide, by decide⟩,
    ⟨h.1, h.2.1⟩⟩

/-- C9: maskData runs exactly when the mask guard evaluates truthily under
Python semantics — the maskAtRandom key is present and either one of its
entries is truthy or the maskNSamples key is present with a truthy entry;
and a data_opts containing maskNSamples but not maskAtRandom raises KeyError
"maskAtRandom" before any model construction. -/
theorem C9_mask_guard (data : List View) (dOpts : DataOpts) (mo : ModelOpts)
    (tOpts : TrainOpts) (seed : Option Int) (clock : Int)
    (fs : List String) :
    (Event.maskData ∈ (runMOFA data dOpts mo tOpts seed clock fs).events ↔
      ∃ xs, dOpts.maskAtRandom = some xs ∧
        (xs.any (fun x => x != 0) = true ∨
         ∃ ys, dOpts.maskNSamples = some ys ∧
           ys.any (fun x => x != 0) = true)) ∧
    (dOpts.maskNSamples.isSome = true → dOpts.maskAtRandom = none →
      (runMOFA data dOpts mo tOpts seed clock fs).error =
        some (Err.keyError "maskAtRandom") ∧
      ∀ e ∈ (runMOFA data dOpts mo tOpts seed clock fs).events,
        isInitEv e = false) := by
  constructor
  · rw [← maskGuard_true_iff]
    constructor
    · intro hmem
      rw [runMOFA, runWith_events_def] at hmem
      obtain ⟨p, hp, hep⟩ := runSteps_mem _ _ hmem
      simp only [List.mem_cons, List.not_mem_nil, or_false] at hp
      rcases hp with hp|hp|hp|hp|hp|hp|hp|hp|hp|hp <;> subst hp
      · simp at hep
      · rcases sanityCheck_events_mem _ _ _ _ _ hep with h1 | ⟨d, h1⟩ <;>
          simp at h1
      · exact (maskData_mem_maskStep_iff dOpts data).mp hep
      · simp at hep
      · have := initModelStep_events_mem _ _ hep; simp at this
      · simp at hep
      · have := thetaEvents_mem _ _ hep; simp [isThetaEv] at this
      · simp at hep
      · obtain ⟨n, bl, h1⟩ := wireGo_events_mem _ _ _ hep; simp at h1
      · simp at hep
    · intro hg
      rw [runMOFA, runWith_events_def]
      have hms := maskStep_of_guard_true dOpts data hg
      rw [hms]
      unfold maskData
      rcases hmm : maskMismatch data with _ | _ <;> simp
  · intro hB hA
    have hk := maskStep_keyError dOpts data hB hA
    rcases runWith_cases data dOpts mo tOpts (chooseSeed seed clock) fs with
      ⟨er, hm, heq⟩ | ⟨hm, er, hi2, heq⟩ | ⟨hm, hi2, er, hw2, heq⟩ |
      ⟨hm, hi2, hw2, heq⟩
    · rw [hk] at hm
      simp only [Option.some.injEq] at hm
      subst hm
      constructor
      · rw [runMOFA, heq]
      · rw [runMOFA, heq]
        intro e he
        simp only [hk, List.append_nil, List.mem_append,
          List.mem_singleton] at he
        rcases he with he | he
        · subst he; rfl
        · rcases sanityCheck_events_mem _ _ _ _ _ he with h1 | ⟨d, h1⟩ <;>
            subst h1 <;> rfl
    · rw [hk] at hm; simp at hm
    · rw [hk] at hm; simp at hm
    · rw [hk] at hm; simp at hm

/-- Witness for C9: with maskAtRandom present and truthy, maskData runs; and
the KeyError branch realized at a data_opts holding only maskNSamples. -/
theorem C9_witness :
    (({ exDataOpts with maskAtRandom := some [1] } : DataOpts).maskAtRandom =
        some [1] ∧
      Event.maskData ∈ (runMOFA exData
        { exDataOpts with maskAtRandom := some [1] } exModelOpts exTrainOpts
        (some 7) 123 ["tmp"]).events) ∧
    (({ exDataOpts with maskNSamples := some [1] } : DataOpts).maskNSamples.isSome = true ∧
      ({ exDataOpts with maskNSamples := some [1] } : DataOpts).maskAtRandom = none ∧
      (runMOFA exData { exDataOpts with maskNSamples := some [1] }
        exModelOpts exTrainOpts (some 7) 123 ["tmp"]).error =
        some (Err.keyError "maskAtRandom")) := by
  refine ⟨⟨rfl, ?_⟩, ⟨rfl, rfl, ?_⟩⟩
  · exact (C9_mask_guard exData { exDataOpts with maskAtRandom := some [1] }
      exModelOpts exTrainOpts (some 7) 123 ["tmp"]).1.mpr
      ⟨[1], rfl, Or.inl (by decide)⟩
  · exact ((C9_mask_guard exData { exDataOpts with maskNSamples := some [1] }
      exModelOpts exTrainOpts (some 7) 123 ["tmp"]).2 rfl rfl).1

/-- C10: before parsing data or constructing any node, runMOFA checks the
parent directory of data_opts outfile and creates it (with a printed notice)
exactly when it is missing; this directory creation is the only state the
sanity-check step changes, and the data and option structures pass through
it unchanged. -/
theorem C10_sanity_check_frame (data : List View) (dOpts : DataOpts)
    (mo : ModelOpts) (tOpts : TrainOpts) (seed : Option Int) (clock : Int)
    (fs : List String) :
    (sanityCheck fs dOpts mo data).dataOpts = dOpts ∧
    (sanityCheck fs dOpts mo data).modelOpts = mo ∧
    (sanityCheck fs dOpts mo data).data = data ∧
    (dirname dOpts.outfile ∈ fs →
      (sanityCheck fs dOpts mo data).fs = fs ∧
      (sanityCheck fs dOpts mo data).events = []) ∧
    (dirname dOpts.outfile ∉ fs →
      (sanityCheck fs dOpts mo data).fs = dirname dOpts.outfile :: fs ∧
      (sanityCheck fs dOpts mo data).events =
        [Event.printNotice, Event.mkdir (dirname dOpts.outfile)]) ∧
    (∃ rest, (runMOFA data dOpts mo tOpts seed clock fs).events =
      Event.seedSet (chooseSeed seed clock) ::
        ((sanityCheck fs dOpts mo data).events ++ rest)) ∧
    (∀ e ∈ (sanityCheck fs dOpts mo data).events,
      e ≠ Event.maskData ∧ isInitEv e = false) := by
  refine ⟨sanityCheck_dataOpts fs dOpts mo data,
    sanityCheck_modelOpts fs dOpts mo data,
    sanityCheck_data fs dOpts mo data, ?_, ?_, ?_, ?_⟩
  · intro hin
    unfold sanityCheck
    rw [if_pos hin]
    exact ⟨rfl, rfl⟩
  · intro hout
    unfold sanityCheck
    rw [if_neg hout]
    exact ⟨rfl, rfl⟩
  · rw [runMOFA, runWith_events_def]
    refine ⟨(runSteps
      [maskStep dOpts data,
       ([Event.printSeed (chooseSeed seed clock)], none),
       initModelStep mo,
       ([Event.initZ, Event.initSW, Event.initAlphaW_mk, Event.initTau],
        none),
       (thetaEvents mo, none),
       ([Event.initY], none),
       wireGo (constructedNodes mo) wiringList,
       ([Event.buildNet mo.schedule, Event.iterate, Event.saveModel],
        none)]).1, ?_⟩
    simp
  · intro e he
    rcases sanityCheck_events_mem _ _ _ _ _ he with h1 | ⟨d, h1⟩ <;>
      subst h1 <;> exact ⟨by simp, rfl⟩

/-- Witness for C10: creation of the missing directory "out" realized on a
concrete file system, and the no-op branch realized when it already
exists. -/
theorem C10_witness :
    (dirname exDataOpts.outfile ∉ ["tmp"] ∧
      (sanityCheck ["tmp"] exDataOpts exModelOpts exData).fs =
        dirname exDataOpts.outfile :: ["tmp"] ∧
      (sanityCheck ["tmp"] exDataOpts exModelOpts exData).events =
        [Event.printNotice, Event.mkdir (dirname exDataOpts.outfile)]) ∧
    (dirname exDataOpts.outfile ∈ ["out"] ∧
      (sanityCheck ["out"] exDataOpts exModelOpts exData).fs = ["out"] ∧
      (sanityCheck ["out"] exDataOpts exModelOpts exData).events = []) := by
  have h1 := (C10_sanity_check_frame exData exDataOpts exModelOpts
    exTrainOpts (some 7) 123 ["tmp"]).2.2.2.2.1 (by decide)
  have h2 := (C10_sanity_check_frame exData exDataOpts exModelOpts
    exTrainOpts (some 7) 123 ["out"]).2.2.2.1 (by decide)
  exact ⟨⟨by decide, h1.1, h1.2⟩, ⟨by decide, h2.1, h2.2⟩⟩

/-- C5: in every run that completes, Markov-blanket wiring happens exactly
once, only after every node construction event, and BayesNet construction
and the single iterate come only after wiring has completed. -/
theorem C5_wiring_temporal_order (data : List View) (dOpts : DataOpts)
    (mo : ModelOpts) (tOpts : TrainOpts) (seed : Option Int) (clock : Int)
    (fs : List String)
    (h : (runMOFA data dOpts mo tOpts seed clock fs).error = none) :
    orderedTrace mo (runMOFA data dOpts mo tOpts seed clock fs) := by
  rw [runMOFA] at h ⊢
  obtain ⟨c, ht, hev⟩ :=
    runWith_ok_trace data dOpts mo tOpts (chooseSeed seed clock) fs h
  have hpre : ∀ e, e ∈ [Event.seedSet (chooseSeed seed clock)] ++
      (sanityCheck fs dOpts mo data).events ++ (maskStep dOpts data).1 ++
      [Event.printSeed (chooseSeed seed clock)] ++ [Event.initModel] ++
      [Event.initZ, Event.initSW, Event.initAlphaW_mk, Event.initTau] ++
      thetaEvents mo ++ [Event.initY] →
      isWireEv e = false ∧ e ≠ Event.iterate := by
    intro e he
    simp only [List.mem_append] at he
    rcases he with (((((((he|he)|he)|he)|he)|he)|he)|he)
    · simp at he; subst he; exact ⟨rfl, by simp⟩
    · rcases sanityCheck_events_mem _ _ _ _ _ he with h1 | ⟨d, h1⟩ <;>
        subst h1 <;> exact ⟨rfl, by simp⟩
    · have := maskStep_events_mem _ _ _ he; subst this; exact ⟨rfl, by simp⟩
    · simp at he; subst he; exact ⟨rfl, by simp⟩
    · simp at he; subst he; exact ⟨rfl, by simp⟩
    · simp at he
      rcases he with he|he|he|he <;> subst he <;> exact ⟨rfl, by simp⟩
    · exact ⟨isThetaEv_not_wire e (thetaEvents_mem _ _ he),
        isThetaEv_ne_iterate e (thetaEvents_mem _ _ he)⟩
    · simp at he; subst he; exact ⟨rfl, by simp⟩
  have cSan : Event.iterate ∉ (sanityCheck fs dOpts mo data).events := by
    intro hc
    rcases sanityCheck_events_mem _ _ _ _ _ hc with h1 | ⟨d, h1⟩ <;>
      simp at h1
  have cMask : Event.iterate ∉ (maskStep dOpts data).1 := by
    intro hc
    have := maskStep_events_mem _ _ _ hc
    simp at this
  have cTheta : Event.iterate ∉ thetaEvents mo := by
    intro hc
    exact isThetaEv_ne_iterate _ (thetaEvents_mem _ _ hc) rfl
  refine ⟨[Event.seedSet (chooseSeed seed clock)] ++
    (sanityCheck fs dOpts mo data).events ++ (maskStep dOpts data).1 ++
    [Event.printSeed (chooseSeed seed clock)] ++ [Event.initModel] ++
    [Event.initZ, Event.initSW, Event.initAlphaW_mk, Event.initTau] ++
    thetaEvents mo ++ [Event.initY], hev, ?_, ?_, ?_, ?_, ?_, ?_, ?_, ?_,
    ?_, ?_, ?_⟩
  · intro e he
    exact (hpre e he).1
  · intro hmem
    exact (hpre _ hmem).2 rfl
  · simp
  · simp
  · simp
  · simp
  · simp
  · simp
  · cases c with
    | mixed sp =>
      refine ⟨Event.initThetaMixed sp, ?_, rfl⟩
      have hth : thetaEvents mo = [Event.initThetaMixed sp] := by
        simp [thetaEvents, ht]
      simp [hth]
    | const v =>
      refine ⟨Event.initThetaConst v, ?_, rfl⟩
      have hth : thetaEvents mo = [Event.initThetaConst v] := by
        simp [thetaEvents, ht]
      simp [hth]
  · rw [hev]
    have c4 : List.count Event.iterate wireEvents = 0 := by decide
    simp [List.count_append, List.count_cons, List.count_eq_zero.mpr cSan,
      List.count_eq_zero.mpr cMask, List.count_eq_zero.mpr cTheta, c4]
  · rw [hev]
    simp only [List.filter_append]
    have h1 : ((sanityCheck fs dOpts mo data).events).filter isWireEv = [] := by
      rw [List.filter_eq_nil_iff]
      intro e he
      rcases sanityCheck_events_mem _ _ _ _ _ he with h1 | ⟨d, h1⟩ <;>
        subst h1 <;> simp [isWireEv]
    have h2 : ((maskStep dOpts data).1).filter isWireEv = [] := by
      rw [List.filter_eq_nil_iff]
      intro e he
      have := maskStep_events_mem _ _ _ he
      subst this
      simp [isWireEv]
    have h3 : (thetaEvents mo).filter isWireEv = [] := by
      rw [List.filter_eq_nil_iff]
      intro e he
      have := isThetaEv_not_wire e (thetaEvents_mem _ _ he)
      simp [this]
    have h4 : wireEvents.filter isWireEv = wireEvents := by decide
    simp [h1, h2, h3, h4, isWireEv]

/-- Witness for C5: the temporal ordering realized on a completing concrete
run. -/
theorem C5_witness :
    (runMOFA exData exDataOpts exModelOpts exTrainOpts (some 7) 123
      ["tmp"]).error = none ∧
    orderedTrace exModelOpts (runMOFA exData exDataOpts exModelOpts
      exTrainOpts (some 7) 123 ["tmp"]) := by
  exact ⟨by decide, C5_wiring_temporal_order exData exDataOpts exModelOpts
    exTrainOpts (some 7) 123 ["tmp"] (by decide)⟩

/-- C6 counterexample: with the ARD mode configured as "m" (per view),
runMOFA still completes the run constructing AlphaW through the mk variant
and through no other variant, so the construction does not follow the
configured mode. -/
theorem C6_counterexample :
    moArdM.ardW = "m" ∧
    (runMOFA exData exDataOpts moArdM exTrainOpts (some 7) 123
      ["tmp"]).error = none ∧
    Event.initAlphaW_mk ∈ (runMOFA exData exDataOpts moArdM exTrainOpts
      (some 7) 123 ["tmp"]).events ∧
    Event.initAlphaW_m ∉ (runMOFA exData exDataOpts moArdM exTrainOpts
      (some 7) 123 ["tmp"]).events := by
  decide

/-- C6 (amended): the ARD mode is a recognized configuration option whose
values m, k and mk select distinct prior shapes in the configuration
assembly, but runMOFA itself constructs AlphaW unconditionally through the
mk (per-view-per-factor) variant and never the per-view or per-factor
variant, regardless of the configured mode. -/
theorem C6_amended_ardmode_ignored (data : List View) (dOpts : DataOpts)
    (mo : ModelOpts) (tOpts : TrainOpts) (seed : Option Int) (clock : Int)
    (fs : List String) :
    priorAlphaWShape "m" = some ARDShape.perView ∧
    priorAlphaWShape "k" = some ARDShape.perFactor ∧
    priorAlphaWShape "mk" = some ARDShape.perViewFactor ∧
    Event.initAlphaW_m ∉ (runMOFA data dOpts mo tOpts seed clock fs).events ∧
    Event.initAlphaW_k ∉ (runMOFA data dOpts mo tOpts seed clock fs).events ∧
    ((runMOFA data dOpts mo tOpts seed clock fs).error = none →
      Event.initAlphaW_mk ∈
        (runMOFA data dOpts mo tOpts seed clock fs).events) := by
  refine ⟨rfl, rfl, rfl, ?_, ?_, ?_⟩
  · intro hmem
    rw [runMOFA] at hmem
    rcases runWith_events_classify data dOpts mo tOpts (chooseSeed seed clock)
      fs _ hmem with h|h|h|h|h|h|h|h|h|h|h|h|h|h|h|h <;>
      simp [isThetaEv] at h
  · intro hmem
    rw [runMOFA] at hmem
    rcases runWith_events_classify data dOpts mo tOpts (chooseSeed seed clock)
      fs _ hmem with h|h|h|h|h|h|h|h|h|h|h|h|h|h|h|h <;>
      simp [isThetaEv] at h
  · intro h
    rw [runMOFA] at h ⊢
    obtain ⟨c, ht, hev⟩ :=
      runWith_ok_trace data dOpts mo tOpts (chooseSeed seed clock) fs h
    rw [hev]
    simp

/-- Witness for C6's amended statement: realized at the per-view ARD mode
configuration, whose run completes. -/
theorem C6_witness :
    (runMOFA exData exDataOpts moArdM exTrainOpts (some 7) 123
      ["tmp"]).error = none ∧
    Event.initAlphaW_mk ∈ (runMOFA exData exDataOpts moArdM exTrainOpts
      (some 7) 123 ["tmp"]).events := by
  exact ⟨by decide, (C6_amended_ardmode_ignored exData exDataOpts moArdM
    exTrainOpts (some 7) 123 ["tmp"]).2.2.2.2.2 (by decide)⟩

end Claims

end MOFA
